import Mathlib

/-!
Verification development for the efiXplorer Hex-Rays retyping core
(`efiXplorer/efiHexRays.cpp`).

The C++ functions are shallowly embedded: the external IDA SDK type
system (`tinfo_t` and its query methods) is abstracted into explicit
Lean data, and each embedded definition mirrors the control flow of the
corresponding C++ function line by line.
-/

/-- Abstraction of the element-type values `IsPODArray` walks through.
The source consults four facilities on such a type:
`is_typeid_last(et.get_realtype())`, `et.is_decl_last()`, `et.is_ptr()`
and `remove_pointer(et)`.  Every node therefore carries its two
classification bits; a `ptr` node additionally carries its pointee. -/
inductive TType where
  | base (typeidLast declLast : Bool)
  | ptr (typeidLast declLast : Bool) (pointee : TType)
deriving DecidableEq, Repr

/-- Models `is_typeid_last(et.get_realtype())` (the "b1" check). -/
def TType.typeid_last : TType → Bool
  | .base b1 _ => b1
  | .ptr b1 _ _ => b1

/-- Models `et.is_decl_last()` (the "b2" check). -/
def TType.decl_last : TType → Bool
  | .base _ b2 => b2
  | .ptr _ b2 _ => b2

/-- Models `et.is_ptr()`. -/
def TType.is_ptr : TType → Bool
  | .base .. => false
  | .ptr .. => true

/-- Models `remove_pointer(et)`: strips one layer of indirection.
The source only calls it on pointer types; on a non-pointer we return
the type unchanged. -/
def removePointer : TType → TType
  | .ptr _ _ p => p
  | t => t

/-- The primitive-like test of the loop body: `b1 || b2`
(`if (b1 || b2) return true;`). -/
def isPrimLike (et : TType) : Bool :=
  et.typeid_last || et.decl_last

/-- Models `array_type_data_t`: the element type and element count that
`tif.get_array_details` yields. -/
structure ArrayTypeData where
  elem_type : TType
  nelems : Nat
deriving DecidableEq, Repr

/-- Abstraction of the `tinfo_t` handed to `IsPODArray`: whether
`tif.is_array()` holds, and what `tif.get_array_details(&atd)` yields
(`none` models the failing call). -/
structure TInfo where
  is_array : Bool
  array_details : Option ArrayTypeData
deriving DecidableEq, Repr

/-- The `while (iDepth > 0)` loop of `IsPODArray`, by structural
recursion on `iDepth`.  Body: if `b1 || b2` return `true`; else if
`--iDepth > 0` strip a pointer layer (returning `false` when the type
is not a pointer); falling out of the loop returns `false`. -/
def isPodArrayLoop : Nat → TType → Bool
  | 0, _ => false
  | n + 1, et =>
    if isPrimLike et then true
    else if n > 0 then
      if et.is_ptr then isPodArrayLoop n (removePointer et)
      else false
    else false

/-- Instrumented version of the loop that additionally counts how many
times the primitive-like test (`b1 || b2`) is evaluated. -/
def isPodArrayLoopCount : Nat → TType → Bool × Nat
  | 0, _ => (false, 0)
  | n + 1, et =>
    if isPrimLike et then (true, 1)
    else if n > 0 then
      if et.is_ptr then
        let r := isPodArrayLoopCount n (removePointer et)
        (r.1, r.2 + 1)
      else (false, 1)
    else (false, 1)

/-- Models `int iDepth = ptrDepth + 1;`: the `unsigned int` argument is
incremented modulo `2 ^ 32` and the result converted to a signed 32-bit
`int` (two's complement), so `ptrDepth = UINT_MAX` wraps the counter to
`0` and any `ptrDepth ≥ 2 ^ 31 - 1` makes it non-positive. -/
def iDepthOf (ptrDepth : Nat) : Int :=
  let u : Nat := (ptrDepth + 1) % 2 ^ 32
  if u < 2 ^ 31 then (u : Int) else (u : Int) - 2 ^ 32

/-- Embedding of `IsPODArray(tinfo_t tif, unsigned int ptrDepth)`:
return `false` if not an array; return `false` if the array details
cannot be retrieved; otherwise run the `while (iDepth > 0)` loop on the
element type with the signed 32-bit counter `iDepth = ptrDepth + 1`
(`Int.toNat` sends a non-positive counter to `0`, on which the loop
body never runs — exactly the skipped `while`). -/
def IsPODArray (tif : TInfo) (ptrDepth : Nat) : Bool :=
  if !tif.is_array then false
  else
    match tif.array_details with
    | none => false
    | some atd => isPodArrayLoop (iDepthOf ptrDepth).toNat atd.elem_type

/-- `k` applications of `remove_pointer`, innermost first: the sequence
of successively pointer-stripped element types the loop visits. -/
def stripN : Nat → TType → TType
  | 0, t => t
  | k + 1, t => stripN k (removePointer t)

theorem stripN_succ (k : Nat) (t : TType) :
    stripN (k + 1) t = stripN k (removePointer t) := rfl

theorem isPodArrayLoop_one (et : TType) :
    isPodArrayLoop 1 et = isPrimLike et := by
  simp [isPodArrayLoop]

theorem isPodArrayLoop_step_prim (n : Nat) (et : TType)
    (h : isPrimLike et = true) :
    isPodArrayLoop (n + 1 + 1) et = true := by
  simp [isPodArrayLoop, h]

theorem isPodArrayLoop_step_ptr (n : Nat) (et : TType)
    (h1 : isPrimLike et = false) (h2 : et.is_ptr = true) :
    isPodArrayLoop (n + 1 + 1) et = isPodArrayLoop (n + 1) (removePointer et) := by
  simp [isPodArrayLoop, h1, h2]

theorem isPodArrayLoop_step_stuck (n : Nat) (et : TType)
    (h1 : isPrimLike et = false) (h2 : et.is_ptr = false) :
    isPodArrayLoop (n + 1 + 1) et = false := by
  simp [isPodArrayLoop, h1, h2]

/-- Full characterization of the depth loop: starting from `iDepth =
D + 1`, the loop yields `true` exactly when some strip count `k ≤ D`
reaches a primitive-like type with every earlier visited type being a
pointer. -/
theorem isPodArrayLoop_iff (D : Nat) (et : TType) :
    isPodArrayLoop (D + 1) et = true ↔
      ∃ k, k ≤ D ∧ isPrimLike (stripN k et) = true ∧
        ∀ j, j < k → (stripN j et).is_ptr = true := by
  induction D generalizing et with
  | zero =>
    rw [isPodArrayLoop_one]
    constructor
    · intro h
      exact ⟨0, Nat.le_refl 0, h, fun j hj => absurd hj (Nat.not_lt_zero j)⟩
    · rintro ⟨k, hk, hp, _⟩
      have hk0 : k = 0 := Nat.le_zero.mp hk
      subst hk0
      exact hp
  | succ D ih =>
    cases hp : isPrimLike et with
    | true =>
      rw [isPodArrayLoop_step_prim D et hp]
      constructor
      · intro _
        exact ⟨0, Nat.zero_le _, hp, fun j hj => absurd hj (Nat.not_lt_zero j)⟩
      · intro _
        rfl
    | false =>
      cases hptr : et.is_ptr with
      | true =>
        rw [isPodArrayLoop_step_ptr D et hp hptr, ih]
        constructor
        · rintro ⟨k, hk, hkp, hkptr⟩
          refine ⟨k + 1, Nat.succ_le_succ hk, ?_, ?_⟩
          · rwa [stripN_succ]
          · intro j hj
            cases j with
            | zero => exact hptr
            | succ j' =>
              rw [stripN_succ]
              exact hkptr j' (Nat.lt_of_succ_lt_succ hj)
        · rintro ⟨k, hk, hkp, hkptr⟩
          cases k with
          | zero =>
            have hkp0 : isPrimLike et = true := hkp
            rw [hp] at hkp0
            exact Bool.noConfusion hkp0
          | succ k' =>
            refine ⟨k', Nat.le_of_succ_le_succ hk, ?_, ?_⟩
            · rwa [stripN_succ] at hkp
            · intro j hj
              have hs := hkptr (j + 1) (Nat.succ_lt_succ hj)
              rwa [stripN_succ] at hs
      | false =>
        rw [isPodArrayLoop_step_stuck D et hp hptr]
        constructor
        · intro h
          exact Bool.noConfusion h
        · rintro ⟨k, hk, hkp, hkptr⟩
          cases k with
          | zero =>
            have hkp0 : isPrimLike et = true := hkp
            rw [hp] at hkp0
            exact Bool.noConfusion hkp0
          | succ k' =>
            have h0 : et.is_ptr = true := hkptr 0 (Nat.succ_pos k')
            rw [hptr] at h0
            exact Bool.noConfusion h0

theorem isPodArrayLoopCount_fst (n : Nat) (et : TType) :
    (isPodArrayLoopCount n et).1 = isPodArrayLoop n et := by
  induction n generalizing et with
  | zero => rfl
  | succ n ih =>
    simp only [isPodArrayLoopCount, isPodArrayLoop]
    split_ifs <;> simp [ih]

theorem isPodArrayLoopCount_le (n : Nat) (et : TType) :
    (isPodArrayLoopCount n et).2 ≤ n := by
  induction n generalizing et with
  | zero => exact Nat.le_refl 0
  | succ n ih =>
    simp only [isPodArrayLoopCount]
    split_ifs
    · exact Nat.succ_le_succ (Nat.zero_le n)
    · exact Nat.succ_le_succ (ih (removePointer et))
    · exact Nat.succ_le_succ (Nat.zero_le n)
    · exact Nat.succ_le_succ (Nat.zero_le n)

theorem isPodArrayLoopCount_one (et : TType) :
    (isPodArrayLoopCount 1 et).2 = 1 := by
  simp only [isPodArrayLoopCount]
  split_ifs <;> rfl

theorem iDepthOf_pos (D : Nat) (h : D + 1 < 2 ^ 31) :
    (iDepthOf D).toNat = D + 1 := by
  have h32 : D + 1 < 2 ^ 32 := lt_trans h (by norm_num)
  unfold iDepthOf
  rw [Nat.mod_eq_of_lt h32, if_pos h]
  simp

theorem iDepthOf_nonpos (D : Nat) (h1 : 2 ^ 31 ≤ D + 1) (h2 : D + 1 ≤ 2 ^ 32) :
    (iDepthOf D).toNat = 0 := by
  unfold iDepthOf
  rcases Nat.lt_or_ge (D + 1) (2 ^ 32) with hlt | hge
  · rw [Nat.mod_eq_of_lt hlt]
    have hnot : ¬ (D + 1 < 2 ^ 31) := Nat.not_lt.mpr h1
    simp only [hnot, if_false]
    rw [Int.toNat_eq_zero]
    have hc : ((D : Int) + 1) ≤ (2 : Int) ^ 32 := by exact_mod_cast h2
    push_cast
    omega
  · have heq : D + 1 = 2 ^ 32 := Nat.le_antisymm h2 hge
    rw [heq]
    norm_num

/-- On the array path, `IsPODArray` is the depth loop run with the
signed 32-bit counter. -/
theorem IsPODArray_eq_loop (tif : TInfo) (atd : ArrayTypeData) (D : Nat)
    (h1 : tif.is_array = true) (h2 : tif.array_details = some atd) :
    IsPODArray tif D = isPodArrayLoop (iDepthOf D).toNat atd.elem_type := by
  simp [IsPODArray, h1, h2]

/-- C1 counterexample: at `ptrDepth = UINT_MAX = 2 ^ 32 - 1` the source
computes `int iDepth = ptrDepth + 1`, which wraps to `0`; the
`while (iDepth > 0)` loop never runs and `IsPODArray` returns `false`
although the bare element type already qualifies as primitive-like —
contradicting the claim that the first qualifying check yields `true`
for every `maxPointerDepth`. -/
theorem isPodArray_depth_budget_counterexample :
    isPrimLike (TType.base true true) = true ∧
      IsPODArray ⟨true, some ⟨.base true true, 1⟩⟩ (2 ^ 32 - 1) = false := by
  constructor
  · rfl
  · decide

/-- C1 (amended): for an array type with retrievable details and depth
budget `D` with `D + 1 < 2 ^ 31` (so the signed loop counter
`int iDepth = ptrDepth + 1` starts positive), `IsPODArray` performs at
most `D + 1` primitive-like checks on the successively pointer-stripped
element type, returning `true` exactly when some strip count `k ≤ D`
reaches a primitive-like type with every earlier visited type a pointer
(first match wins; a non-primitive non-pointer or an exhausted budget
yields `false`); with `D = 0` exactly one check is performed against
the bare element type and no stripping occurs.  For representable
depths `D ≥ 2 ^ 31 - 1` the counter wraps or goes negative, the loop is
skipped, and `false` is returned with no check at all. -/
theorem isPodArray_depth_budget (tif : TInfo) (atd : ArrayTypeData) (D : Nat)
    (h1 : tif.is_array = true) (h2 : tif.array_details = some atd)
    (hD : D + 1 < 2 ^ 31) :
    (IsPODArray tif D = true ↔
        ∃ k, k ≤ D ∧ isPrimLike (stripN k atd.elem_type) = true ∧
          ∀ j, j < k → (stripN j atd.elem_type).is_ptr = true) ∧
      (isPodArrayLoopCount (D + 1) atd.elem_type).2 ≤ D + 1 ∧
      (isPodArrayLoopCount (D + 1) atd.elem_type).1 = IsPODArray tif D ∧
      IsPODArray tif 0 = isPrimLike atd.elem_type ∧
      (isPodArrayLoopCount 1 atd.elem_type).2 = 1 ∧
      (∀ Dw, 2 ^ 31 ≤ Dw + 1 → Dw + 1 ≤ 2 ^ 32 → IsPODArray tif Dw = false) := by
  have hI : IsPODArray tif D = isPodArrayLoop (D + 1) atd.elem_type := by
    rw [IsPODArray_eq_loop tif atd D h1 h2, iDepthOf_pos D hD]
  have h0 : IsPODArray tif 0 = isPodArrayLoop 1 atd.elem_type := by
    rw [IsPODArray_eq_loop tif atd 0 h1 h2, iDepthOf_pos 0 (by norm_num)]
  refine ⟨?_, isPodArrayLoopCount_le _ _, ?_, ?_, isPodArrayLoopCount_one _, ?_⟩
  · rw [hI]
    exact isPodArrayLoop_iff D atd.elem_type
  · rw [hI]
    exact isPodArrayLoopCount_fst _ _
  · rw [h0]
    exact isPodArrayLoop_one _
  · intro Dw hw1 hw2
    rw [IsPODArray_eq_loop tif atd Dw h1 h2, iDepthOf_nonpos Dw hw1 hw2]
    rfl

theorem isPodArray_depth_budget_witness :
    IsPODArray ⟨true, some ⟨.ptr false false (.base true false), 3⟩⟩ 0 =
      isPrimLike (TType.ptr false false (.base true false)) :=
  (isPodArray_depth_budget ⟨true, some ⟨.ptr false false (.base true false), 3⟩⟩
    ⟨.ptr false false (.base true false), 3⟩ 0 rfl rfl (by norm_num)).2.2.2.1

/-- C5: the primitive-like test of `IsPODArray` tries two independent
classifications — `is_typeid_last` on the real type and `is_decl_last` —
and either one passing suffices (the test is exactly their disjunction,
so both are never required); in particular an array whose element type
passes either classification is accepted at every depth budget whose
signed loop counter `ptrDepth + 1` starts positive, so the test is
actually reached. -/
theorem isPodArray_dual_classification :
    (∀ et : TType,
      isPrimLike et = true ↔ (et.typeid_last = true ∨ et.decl_last = true)) ∧
    ∀ (tif : TInfo) (atd : ArrayTypeData) (D : Nat),
      tif.is_array = true → tif.array_details = some atd →
      D + 1 < 2 ^ 31 →
      (atd.elem_type.typeid_last = true ∨ atd.elem_type.decl_last = true) →
      IsPODArray tif D = true := by
  have hiff : ∀ et : TType,
      isPrimLike et = true ↔ (et.typeid_last = true ∨ et.decl_last = true) := by
    intro et
    simp [isPrimLike, Bool.or_eq_true]
  refine ⟨hiff, ?_⟩
  intro tif atd D h1 h2 hD h3
  have hI : IsPODArray tif D = isPodArrayLoop (D + 1) atd.elem_type := by
    rw [IsPODArray_eq_loop tif atd D h1 h2, iDepthOf_pos D hD]
  rw [hI]
  exact (isPodArrayLoop_iff D atd.elem_type).mpr
    ⟨0, Nat.zero_le _, (hiff atd.elem_type).mpr h3,
      fun j hj => absurd hj (Nat.not_lt_zero j)⟩

theorem isPodArray_dual_classification_witness :
    IsPODArray ⟨true, some ⟨.base false true, 2⟩⟩ 0 = true :=
  isPodArray_dual_classification.2 ⟨true, some ⟨.base false true, 2⟩⟩
    ⟨.base false true, 2⟩ 0 rfl rfl (by norm_num) (Or.inr rfl)

/-- C7: for every type that is not an array, `IsPODArray` returns `false`
at every pointer depth, regardless of any element-type data. -/
theorem isPodArray_nonarray_false (tif : TInfo) (D : Nat)
    (h : tif.is_array = false) : IsPODArray tif D = false := by
  simp [IsPODArray, h]

theorem isPodArray_nonarray_false_witness :
    IsPODArray ⟨false, some ⟨.base true true, 7⟩⟩ 5 = false :=
  isPodArray_nonarray_false ⟨false, some ⟨.base true true, 7⟩⟩ 5 rfl

/-- C9: for a type that is an array but whose array details cannot be
retrieved, `IsPODArray` returns `false` (it neither fails nor proceeds
with an undefined element type). -/
theorem isPodArray_no_details_false (tif : TInfo) (D : Nat)
    (h1 : tif.is_array = true) (h2 : tif.array_details = none) :
    IsPODArray tif D = false := by
  simp [IsPODArray, h1, h2]

theorem isPodArray_no_details_false_witness :
    IsPODArray ⟨true, none⟩ 2 = false :=
  isPodArray_no_details_false ⟨true, none⟩ 2 rfl rfl

/-- Models `udt_member_t` as far as `OffsetOf` reads it: the member name
and its recorded offset in bits (a `uint64` field in the SDK). -/
structure UdtMember where
  name : String
  offset : Nat
deriving DecidableEq, Repr

/-- Abstraction of the `tinfo_t` handed to `OffsetOf`:
`tif.get_udt_details(&udt)` either fails (`none`) or yields the ordered
member list. -/
structure UdtTInfo where
  udt_details : Option (List UdtMember)
deriving DecidableEq, Repr

/-- Models `tif.find_udt_member(&udm, STRMEM_NAME)`: the index of the
first member whose name matches, `none` for the negative return. -/
def find_udt_member : List UdtMember → String → Option Nat
  | [], _ => none
  | m :: rest, nm =>
    if m.name == nm then some 0
    else (find_udt_member rest nm).map (· + 1)

/-- Embedding of `OffsetOf(tinfo_t tif, const char *name, unsigned int
*offset)`.  The out-parameter is modelled by state passing: the result
pairs the returned `bool` with the final contents of `*offset`, whose
initial contents are `off0`.  On success the member's stored bit offset
is shifted right by 3 and truncated to 32 bits by the
`static_cast<unsigned int>`. -/
def OffsetOf (tif : UdtTInfo) (nm : String) (off0 : Nat) : Bool × Nat :=
  match tif.udt_details with
  | none => (false, off0)
  | some udt =>
    match find_udt_member udt nm with
    | none => (false, off0)
    | some fIdx => (true, ((udt.getD fIdx ⟨"", 0⟩).offset >>> 3) % 2 ^ 32)

theorem find_udt_member_spec (udt : List UdtMember) (nm : String)
    (h : ∃ m, m ∈ udt ∧ m.name = nm) :
    ∃ i, find_udt_member udt nm = some i ∧
      (udt.getD i ⟨"", 0⟩).name = nm := by
  induction udt with
  | nil =>
    obtain ⟨m, hm, _⟩ := h
    exact absurd hm (List.not_mem_nil m)
  | cons a l ih =>
    cases ha : (a.name == nm) with
    | true =>
      refine ⟨0, by simp [find_udt_member, ha], ?_⟩
      simpa using (beq_iff_eq.mp ha : a.name = nm)
    | false =>
      obtain ⟨m, hm, hname⟩ := h
      rcases List.mem_cons.mp hm with heq | hmem
      · subst heq
        rw [hname] at ha
        rw [beq_self_eq_true nm] at ha
        exact Bool.noConfusion ha
      · obtain ⟨i, hfind, hget⟩ := ih ⟨m, hmem, hname⟩
        refine ⟨i + 1, ?_, ?_⟩
        · simp [find_udt_member, ha, hfind]
        · simpa [List.getD_cons_succ] using hget

/-- C2 counterexample: a retrievable layout with a member at bit offset
`2 ^ 35` makes `OffsetOf` succeed yet return `0`, not the exact byte
offset `2 ^ 35 >>> 3 = 2 ^ 32`: the `static_cast<unsigned int>` on the
out-parameter truncates the shifted value to 32 bits. -/
theorem offsetOf_exact_counterexample :
    (OffsetOf ⟨some [⟨"field1", 2 ^ 35⟩]⟩ "field1" 0).1 = true ∧
      (OffsetOf ⟨some [⟨"field1", 2 ^ 35⟩]⟩ "field1" 0).2 = 0 ∧
      (OffsetOf ⟨some [⟨"field1", 2 ^ 35⟩]⟩ "field1" 0).2 ≠ 2 ^ 35 >>> 3 := by
  refine ⟨rfl, rfl, ?_⟩
  decide

/-- C2 (amended): for every type whose field layout is retrievable and
that has a member with the given name, `OffsetOf` succeeds and returns
the first such member's recorded bit offset shifted right by 3 and
truncated to 32 bits by the `unsigned int` out-parameter; the result is
exactly the offset divided by 8 whenever that quotient fits in 32
bits. -/
theorem offsetOf_found (tif : UdtTInfo) (udt : List UdtMember)
    (nm : String) (off0 : Nat)
    (h1 : tif.udt_details = some udt)
    (h2 : ∃ m, m ∈ udt ∧ m.name = nm) :
    (OffsetOf tif nm off0).1 = true ∧
    ∃ fIdx m, find_udt_member udt nm = some fIdx ∧
      udt.getD fIdx ⟨"", 0⟩ = m ∧ m.name = nm ∧
      (OffsetOf tif nm off0).2 = (m.offset >>> 3) % 2 ^ 32 ∧
      (m.offset >>> 3 < 2 ^ 32 → (OffsetOf tif nm off0).2 = m.offset >>> 3) := by
  obtain ⟨i, hfind, hget⟩ := find_udt_member_spec udt nm h2
  have hres : OffsetOf tif nm off0 =
      (true, ((udt.getD i ⟨"", 0⟩).offset >>> 3) % 2 ^ 32) := by
    simp [OffsetOf, h1, hfind]
  refine ⟨by rw [hres], i, udt.getD i ⟨"", 0⟩, hfind, rfl, hget, by rw [hres], ?_⟩
  intro hlt
  rw [hres]
  exact Nat.mod_eq_of_lt hlt

theorem offsetOf_found_witness :
    (OffsetOf ⟨some [⟨"Signature", 16⟩, ⟨"Revision", 64⟩]⟩ "Revision" 5).1 = true :=
  (offsetOf_found ⟨some [⟨"Signature", 16⟩, ⟨"Revision", 64⟩]⟩
    [⟨"Signature", 16⟩, ⟨"Revision", 64⟩] "Revision" 5 rfl
    ⟨⟨"Revision", 64⟩, by simp, rfl⟩).1

/-- C10: on every failing call (layout unavailable or member not found)
the caller-supplied out-parameter is never written: the final offset
contents equal the initial contents. -/
theorem offsetOf_fail_no_write (tif : UdtTInfo) (nm : String) (off0 : Nat)
    (h : (OffsetOf tif nm off0).1 = false) :
    (OffsetOf tif nm off0).2 = off0 := by
  cases hd : tif.udt_details with
  | none => simp [OffsetOf, hd]
  | some udt =>
    cases hf : find_udt_member udt nm with
    | none => simp [OffsetOf, hd, hf]
    | some i =>
      have hcontra : (OffsetOf tif nm off0).1 = true := by
        simp [OffsetOf, hd, hf]
      rw [h] at hcontra
      exact Bool.noConfusion hcontra

theorem offsetOf_fail_no_write_witness :
    (OffsetOf ⟨some [⟨"Signature", 16⟩]⟩ "BadName" 9).2 = 9 :=
  offsetOf_fail_no_write ⟨some [⟨"Signature", 16⟩]⟩ "BadName" 9 rfl

/-- Models `lvar_t` as far as `SetHexRaysVariableType` reads it: only
the variable's name is consulted (for the rejection diagnostic). -/
structure LvarT where
  name : String
deriving DecidableEq, Repr

/-- Models `lvar_saved_info_t` as filled in by the function: the target
variable (`lsi.ll`) and the new type (`lsi.type`, an opaque handle to
the `tinfo_t` being applied). -/
structure LvarSavedInfo where
  ll : LvarT
  type : Nat
deriving DecidableEq, Repr

/-- The external variable-metadata store: the behaviour of
`modify_user_lvar_info(funcEa, MLI_TYPE, lsi)` for every function
address and saved-info record. -/
structure LvarStore where
  modify_user_lvar_info : Nat → LvarSavedInfo → Bool

/-- Embedding of `SetHexRaysVariableType(ea_t funcEa, lvar_t &ll,
tinfo_t tif)`: build the saved-info record and submit it to the store;
on rejection report the function address and variable name (the `msg`
diagnostic, modelled as the optional error payload) and return `false`;
on acceptance return `true` with no diagnostic. -/
def SetHexRaysVariableType (store : LvarStore) (funcEa : Nat) (ll : LvarT)
    (tif : Nat) : Bool × Option (Nat × String) :=
  let lsi : LvarSavedInfo := ⟨ll, tif⟩
  if store.modify_user_lvar_info funcEa lsi then (true, none)
  else (false, some (funcEa, ll.name))

/-- C6: `SetHexRaysVariableType` fails iff the underlying store rejects
the mutation, the failure diagnostic carries exactly the function
address and the variable name, and whenever the store accepts, the call
succeeds with no diagnostic. -/
theorem setHexRaysVariableType_iff_store (store : LvarStore) (funcEa : Nat)
    (ll : LvarT) (tif : Nat) :
    ((SetHexRaysVariableType store funcEa ll tif).1 = false ↔
        store.modify_user_lvar_info funcEa ⟨ll, tif⟩ = false) ∧
    ((SetHexRaysVariableType store funcEa ll tif).1 = false →
        (SetHexRaysVariableType store funcEa ll tif).2 = some (funcEa, ll.name)) ∧
    (store.modify_user_lvar_info funcEa ⟨ll, tif⟩ = true →
        SetHexRaysVariableType store funcEa ll tif = (true, none)) := by
  cases hs : store.modify_user_lvar_info funcEa ⟨ll, tif⟩ with
  | true =>
    refine ⟨?_, ?_, ?_⟩ <;> simp [SetHexRaysVariableType, hs]
  | false =>
    refine ⟨?_, ?_, ?_⟩ <;> simp [SetHexRaysVariableType, hs]

theorem setHexRaysVariableType_iff_store_witness :
    (SetHexRaysVariableType ⟨fun _ _ => false⟩ 4096 ⟨"Protocol"⟩ 7).2 =
      some (4096, "Protocol") :=
  (setHexRaysVariableType_iff_store ⟨fun _ _ => false⟩ 4096 ⟨"Protocol"⟩ 7).2.1 rfl

/-- Modelled from the spec: `struct TargetFunctionPointer` is declared
in `efiHexRays.h`, which is outside the visible source; its field order
{name, table byte offset, argument count, GUID argument index,
interface argument index} follows the spec's CallDescriptor (§3, §4.4)
and matches the brace initializers in `applyAllTypesForInterfaces`. -/
structure TargetFunctionPointer where
  name : String
  tableOffset : Nat
  argCount : Nat
  guidArgIndex : Nat
  interfaceArgIndex : Nat
deriving DecidableEq, Repr

/-- The `BootServicesFunctions[3]` initializer of
`applyAllTypesForInterfaces` (descriptors for `EFI_BOOT_SERVICES`). -/
def BootServicesFunctions : List TargetFunctionPointer :=
  [⟨"HandleProtocol", 0x98, 3, 1, 2⟩,
   ⟨"LocateProtocol", 0x140, 3, 0, 2⟩,
   ⟨"OpenProtocol", 0x118, 6, 1, 2⟩]

/-- The `SmmServicesFunctions[2]` initializer (descriptors for
`_EFI_SMM_SYSTEM_TABLE2`). -/
def SmmServicesFunctions : List TargetFunctionPointer :=
  [⟨"SmmHandleProtocol", 0xb8, 3, 1, 2⟩,
   ⟨"SmmLocateProtocol", 0xd0, 3, 0, 2⟩]

/-- Modelled from the spec: `ServiceDescriptor` (the spec's
ServiceTable, §3) is declared outside the visible source; it carries the
service-table type name and its ordered call descriptors. -/
structure ServiceDescriptor where
  name : String
  functions : List TargetFunctionPointer
deriving DecidableEq, Repr

/-- Modelled from the spec: `ServiceDescriptor::Initialize(name,
functions, count)` populates a descriptor once from the first `count`
entries of a fixed array; no runtime mutation afterwards (§4.4). -/
def initializeDescriptor (nm : String) (fns : List TargetFunctionPointer)
    (count : Nat) : ServiceDescriptor :=
  ⟨nm, fns.take count⟩

/-- Modelled from the spec: `ServiceDescriptorMap::Register` inserts a
descriptor into the registry, which is read-only afterwards (§3
ServiceTableRegistry, §4.4). -/
def registerDescriptor (m : List ServiceDescriptor) (sd : ServiceDescriptor) :
    List ServiceDescriptor :=
  m ++ [sd]

/-- `sdBs.Initialize("EFI_BOOT_SERVICES", BootServicesFunctions, 3)`. -/
def sdBs : ServiceDescriptor :=
  initializeDescriptor "EFI_BOOT_SERVICES" BootServicesFunctions 3

/-- `sdSmm.Initialize("_EFI_SMM_SYSTEM_TABLE2", SmmServicesFunctions, 2)`. -/
def sdSmm : ServiceDescriptor :=
  initializeDescriptor "_EFI_SMM_SYSTEM_TABLE2" SmmServicesFunctions 2

/-- `mBs.Register(sdBs)` starting from an empty registry. -/
def mBs : List ServiceDescriptor := registerDescriptor [] sdBs

/-- `mSmm.Register(sdSmm)` starting from an empty registry. -/
def mSmm : List ServiceDescriptor := registerDescriptor [] sdSmm

/-- C4: every CallDescriptor registered by the driver — the three
boot-time-services entries and the two management-mode entries —
satisfies `guidArgIndex < argCount` and `interfaceArgIndex < argCount`;
the registries are plain immutable values, so the well-formedness holds
from construction onward. -/
theorem registered_descriptors_wellformed :
    ∀ sd ∈ mBs ++ mSmm, ∀ d ∈ sd.functions,
      d.guidArgIndex < d.argCount ∧ d.interfaceArgIndex < d.argCount := by
  decide

theorem registered_descriptors_wellformed_witness :
    (⟨"HandleProtocol", 0x98, 3, 1, 2⟩ : TargetFunctionPointer).guidArgIndex <
        (⟨"HandleProtocol", 0x98, 3, 1, 2⟩ : TargetFunctionPointer).argCount ∧
      (⟨"HandleProtocol", 0x98, 3, 1, 2⟩ :
            TargetFunctionPointer).interfaceArgIndex <
        (⟨"HandleProtocol", 0x98, 3, 1, 2⟩ : TargetFunctionPointer).argCount :=
  registered_descriptors_wellformed sdBs (by decide)
    ⟨"HandleProtocol", 0x98, 3, 1, 2⟩ (by decide)

/-- C8: the driver registers exactly two service tables — the
boot-services table with exactly the three entries HandleProtocol,
LocateProtocol, OpenProtocol and the management-mode table with exactly
the two entries SmmHandleProtocol, SmmLocateProtocol — and in both
tables the locate variant carries the GUID at argument index 0 while
every other entry carries it at argument index 1. -/
theorem catalog_tables_shape :
    mBs.length = 1 ∧ mSmm.length = 1 ∧
    mBs = [sdBs] ∧ mSmm = [sdSmm] ∧
    sdBs.functions.map TargetFunctionPointer.name =
      ["HandleProtocol", "LocateProtocol", "OpenProtocol"] ∧
    sdSmm.functions.map TargetFunctionPointer.name =
      ["SmmHandleProtocol", "SmmLocateProtocol"] ∧
    ∀ d ∈ sdBs.functions ++ sdSmm.functions,
      d.guidArgIndex =
        if d.name = "LocateProtocol" ∨ d.name = "SmmLocateProtocol" then 0
        else 1 := by
  decide

theorem catalog_tables_shape_witness :
    (⟨"LocateProtocol", 0x140, 3, 0, 2⟩ : TargetFunctionPointer).guidArgIndex =
      0 :=
  catalog_tables_shape.2.2.2.2.2.2 ⟨"LocateProtocol", 0x140, 3, 0, 2⟩
    (by decide)

/-- One protocol-usage record as read by the driver loop: the JSON
fields `protocol["ea"]` and `protocol["service"]`. -/
structure ProtocolRecord where
  ea : Nat
  service : String
deriving DecidableEq, Repr

/-- The external collaborators the driver loop consults: `get_func`
maps a code address to the start address (`f->start_ea`) of the
function containing it when one exists, and `decompile` yields the
decompiled body of a function (`none` models a `hexrays_failure_t`
with a null `cfuncptr_t`). -/
structure DriverEnv where
  get_func : Nat → Option Nat
  decompile : Nat → Option Nat

/-- What one iteration of the `applyAllTypesForInterfaces` loop does
with its record: `continue` when no function contains the address,
`continue` when decompilation fails, otherwise run both retyper
traversals (`retyperBs`, `retyperSmm`) over the decompiled body. -/
inductive RecordOutcome where
  | skippedNoFunc
  | skippedNoDecompile (funcEa : Nat)
  | retyped (funcEa : Nat) (body : Nat)
deriving DecidableEq, Repr

/-- The loop body of `applyAllTypesForInterfaces` for one record. -/
def processRecord (env : DriverEnv) (p : ProtocolRecord) : RecordOutcome :=
  match env.get_func p.ea with
  | none => .skippedNoFunc
  | some funcEa =>
    match env.decompile funcEa with
    | none => .skippedNoDecompile funcEa
    | some body => .retyped funcEa body

/-- Embedding of the driver loop of `applyAllTypesForInterfaces`: the
records are visited in order and each `continue` is local to its own
iteration, so the loop is the per-record step mapped over the batch. -/
def applyAllTypesForInterfaces (env : DriverEnv)
    (protocols : List ProtocolRecord) : List RecordOutcome :=
  protocols.map (processRecord env)

/-- C3: the driver processes usage records in order and a failure on
one record never aborts the batch: the outcome trace has exactly one
entry per record, the i-th outcome is the per-record step applied to
the i-th record alone, a record whose address lies in no function is
skipped silently, and a record whose owning function fails to decompile
is skipped silently — processing continuing with the next record either
way. -/
theorem applyAllTypes_batch_continuation (env : DriverEnv)
    (ps : List ProtocolRecord) :
    (applyAllTypesForInterfaces env ps).length = ps.length ∧
    (∀ i, ∀ hi : i < ps.length,
      ∀ hi2 : i < (applyAllTypesForInterfaces env ps).length,
      (applyAllTypesForInterfaces env ps)[i] = processRecord env ps[i]) ∧
    (∀ p, env.get_func p.ea = none →
      processRecord env p = .skippedNoFunc) ∧
    (∀ p funcEa, env.get_func p.ea = some funcEa →
      env.decompile funcEa = none →
      processRecord env p = .skippedNoDecompile funcEa) := by
  refine ⟨List.length_map _ _, ?_, ?_, ?_⟩
  · intro i hi hi2
    simp [applyAllTypesForInterfaces]
  · intro p hp
    simp [processRecord, hp]
  · intro p funcEa hp hd
    simp [processRecord, hp, hd]

theorem applyAllTypes_batch_continuation_witness :
    processRecord ⟨fun _ => none, fun _ => none⟩ ⟨1, "HandleProtocol"⟩ =
      .skippedNoFunc :=
  (applyAllTypes_batch_continuation ⟨fun _ => none, fun _ => none⟩
    [⟨1, "HandleProtocol"⟩]).2.2.1 ⟨1, "HandleProtocol"⟩ rfl
